import Mathlib

/-!
Shallow embedding of the voice-memo Discord bot (Go, single-file program;
the current version of the file is `src/unnamed/part_001`).  Pure fragments
of the Go code become Lean functions; the stateful command handlers become
explicit state passing over a registry/catalog value; the two genuinely
concurrent fragments (the `IsVoicePlaying` trigger race and the drain loop)
become small step-transition systems evaluated under explicit schedules.
Machine integers are `Nat`/`Int` with explicit bounds where the Go code's
`int16` semantics matter.
-/

/-- One decoded audio frame: an opaque byte sequence (bytes as `Nat`). -/
abbrev Frame := List Nat

/-- Result of the decode loop of `VoiceMemo.Load` (part_001 lines 387-428).
In every case the frames decoded before the loop stopped are kept, because
the Go code appends each completed frame to `vm.buffer` as it goes:
* `ok`      - the length read hit `io.EOF` or `io.ErrUnexpectedEOF`
              (0 or 1 byte left) and `Load` returns `nil`;
* `readErr` - the payload read came up short, `Load` returns the error;
* `panicked` - the length field read as a negative `int16`, so
              `make([]byte, opuslen)` panics (negative allocation). -/
inductive LoadResult
  | ok (frames : List Frame)
  | readErr (frames : List Frame)
  | panicked (frames : List Frame)
  deriving DecidableEq, Repr

/-- `true` exactly on the `panicked` outcome. -/
def LoadResult.isPanicked : LoadResult → Bool
  | .panicked _ => true
  | _ => false

/-- The decode loop of `VoiceMemo.Load`, embedded over an in-memory byte
list.  The Go loop reads a little-endian `int16` length (`opuslen`), treats
`io.EOF`/`io.ErrUnexpectedEOF` on that read as clean termination, then does
`make([]byte, opuslen)` (panics if the 2-byte value is `>= 32768`, i.e.
negative as `int16`) and reads exactly that many payload bytes (short read
is an error return). -/
def decode : List Nat → LoadResult
  | [] => .ok []
  | [_] => .ok []
  | b0 :: b1 :: rest =>
    let u := b0 + 256 * b1
    if 32768 ≤ u then .panicked []
    else if rest.length < u then .readErr []
    else
      match decode (rest.drop u) with
      | .ok fs => .ok (rest.take u :: fs)
      | .readErr fs => .readErr (rest.take u :: fs)
      | .panicked fs => .panicked (rest.take u :: fs)
termination_by bytes => bytes.length
decreasing_by simp [List.length_drop]; omega

/-- Encoding of one frame in the container format: 2-byte little-endian
length prefix followed by the payload. -/
def encodeFrame (f : Frame) : List Nat :=
  (f.length % 256) :: (f.length / 256) :: f

/-- A container built from well-formed records, one per frame. -/
def encode : List Frame → List Nat
  | [] => []
  | f :: fs => encodeFrame f ++ encode fs

/-- `true` when every length field the decode loop would read stays below
`32768`, i.e. is non-negative as an `int16` (same recursion as `decode`). -/
def lengthFieldsSigned : List Nat → Bool
  | [] => true
  | [_] => true
  | b0 :: b1 :: rest =>
    let u := b0 + 256 * b1
    if 32768 ≤ u then false
    else if rest.length < u then true
    else lengthFieldsSigned (rest.drop u)
termination_by bytes => bytes.length
decreasing_by simp [List.length_drop]; omega

lemma decode_nil : decode [] = .ok [] := by simp [decode]

lemma lengthFieldsSigned_cons_cons (b0 b1 : Nat) (rest : List Nat) :
    lengthFieldsSigned (b0 :: b1 :: rest) =
      if 32768 ≤ b0 + 256 * b1 then false
      else if rest.length < b0 + 256 * b1 then true
      else lengthFieldsSigned (rest.drop (b0 + 256 * b1)) := by
  rw [lengthFieldsSigned]

lemma decode_single (b : Nat) : decode [b] = .ok [] := by simp [decode]

lemma decode_cons_cons (b0 b1 : Nat) (rest : List Nat) :
    decode (b0 :: b1 :: rest) =
      if 32768 ≤ b0 + 256 * b1 then .panicked []
      else if rest.length < b0 + 256 * b1 then .readErr []
      else
        match decode (rest.drop (b0 + 256 * b1)) with
        | .ok fs => .ok (rest.take (b0 + 256 * b1) :: fs)
        | .readErr fs => .readErr (rest.take (b0 + 256 * b1) :: fs)
        | .panicked fs => .panicked (rest.take (b0 + 256 * b1) :: fs) := by
  rw [decode]

/-- Decoding a well-formed container followed by arbitrary trailing bytes:
the frames come out first and the tail decides the outcome. -/
lemma decode_encode_append (fs : List Frame) (h : ∀ f ∈ fs, f.length < 32768)
    (t : List Nat) :
    decode (encode fs ++ t) =
      match decode t with
      | .ok g => .ok (fs ++ g)
      | .readErr g => .readErr (fs ++ g)
      | .panicked g => .panicked (fs ++ g) := by
  induction fs with
  | nil =>
    simp only [encode, List.nil_append]
    cases decode t <;> simp
  | cons f fs ih =>
    have hf : f.length < 32768 := h f (by simp)
    have hfs : ∀ g ∈ fs, g.length < 32768 := fun g hg => h g (by simp [hg])
    have hlen : f.length % 256 + 256 * (f.length / 256) = f.length :=
      Nat.mod_add_div f.length 256
    simp only [encode, encodeFrame, List.append_assoc, List.cons_append]
    rw [decode_cons_cons, hlen]
    have h1 : ¬ 32768 ≤ f.length := by omega
    have h2 : ¬ (f ++ (encode fs ++ t)).length < f.length := by
      simp [List.length_append]
    rw [if_neg h1, if_neg h2]
    have htake : (f ++ (encode fs ++ t)).take f.length = f := by
      simp [List.take_left]
    have hdrop : (f ++ (encode fs ++ t)).drop f.length = encode fs ++ t := by
      simp [List.drop_left]
    rw [htake, hdrop, ih hfs]
    cases decode t <;> simp

/-- C3 counterexample: a single well-formed record (2-byte little-endian
length prefix `0x8000 = 32768`, followed by exactly 32768 payload bytes)
is NOT decoded into its one frame: the Go code reads the prefix into a
signed `int16`, sees `-32768`, and `make([]byte, opuslen)` panics.  So the
claim "decode succeeds and returns exactly N frames" fails at N = 1. -/
theorem c3_counterexample :
    decode (encode [List.replicate 32768 (0 : Nat)]) = .panicked [] := by
  have he : encode [List.replicate 32768 (0 : Nat)] =
      0 :: 128 :: (List.replicate 32768 (0 : Nat) ++ []) := by
    simp only [encode, encodeFrame, List.length_replicate]
    norm_num
  rw [he, decode_cons_cons]
  norm_num

/-- C3 (amended): for every container built from N well-formed records
whose length values are below 32768 (non-negative as `int16`), decode
succeeds and returns exactly the N payloads in file order; since the
decoded frames re-encode to the same container, decode of the re-encoding
is the same N frames (round-trip fixed point). -/
theorem c3_decode_encode_roundtrip (fs : List Frame)
    (h : ∀ f ∈ fs, f.length < 32768) :
    decode (encode fs) = .ok fs := by
  have hap := decode_encode_append fs h []
  simpa [decode_nil] using hap

/-- Witness for `c3_decode_encode_roundtrip` at a concrete 2-record container. -/
theorem c3_decode_encode_roundtrip_witness :
    decode (encode [[1, 2], [3]]) = .ok [[1, 2], [3]] :=
  c3_decode_encode_roundtrip [[1, 2], [3]] (by decide)

/-- C4 counterexample: an input truncated inside the length prefix (a
well-formed record `[1,0,7]` followed by the lone prefix byte `9`) is
decoded as a CLEAN success: the Go code lumps `io.ErrUnexpectedEOF` from
the length read together with `io.EOF` and returns `nil`.  The claim says
such an input must yield a malformed-container error, never clean success. -/
theorem c4_counterexample : decode [1, 0, 7, 9] = .ok [[7]] := by
  simp [decode]

/-- C4 (amended): end-of-stream strictly inside a payload (complete 2-byte
prefix, incomplete payload) is an error return carrying exactly the frames
fully decoded before the truncation point; but end-of-stream inside the
length prefix itself (only 1 of the 2 bytes present) is treated as clean
termination and returns the frames decoded so far as a success. -/
theorem c4_truncation_behavior (fs : List Frame) (h : ∀ f ∈ fs, f.length < 32768)
    (b0 b1 : Nat) (t : List Nat) (hu : b0 + 256 * b1 < 32768)
    (ht : t.length < b0 + 256 * b1) (b : Nat) :
    decode (encode fs ++ (b0 :: b1 :: t)) = .readErr fs ∧
    decode (encode fs ++ [b]) = .ok fs := by
  constructor
  · rw [decode_encode_append fs h, decode_cons_cons,
      if_neg (by omega : ¬ 32768 ≤ b0 + 256 * b1), if_pos ht]
    simp
  · rw [decode_encode_append fs h, decode_single]
    simp

/-- Witness for `c4_truncation_behavior`: one whole record `[1,0,7]`, then a
truncated record (prefix promises 3 bytes, only 1 present) resp. a lone
prefix byte. -/
theorem c4_truncation_behavior_witness :
    decode (encode [[7]] ++ (3 :: 0 :: [1])) = .readErr [[7]] ∧
    decode (encode [[7]] ++ [5]) = .ok [[7]] :=
  c4_truncation_behavior [[7]] (by decide) 3 0 [1] (by norm_num) (by norm_num) 5

/-- C5 counterexample: on the 2-byte input whose length field has the high
bit set (`0x8000`), decode does not return frames or an error — the Go code
reads the field as the signed `int16` value `-32768` and panics attempting
`make([]byte, -32768)`.  So decode does not treat the field as unsigned and
is not a total frames-or-error function. -/
theorem c5_counterexample : decode [0, 128] = .panicked [] := by
  simp [decode]

/-- C5 (amended): the 2-byte little-endian length prefix is read as a
SIGNED 16-bit integer, so only length values 0..32767 denote valid payload
lengths; on any input all of whose length fields stay below 32768, decode
returns frames or an error and never reaches the negative-length
allocation panic. -/
lemma no_panic_aux : ∀ (n : Nat) (bytes : List Nat), bytes.length ≤ n →
    lengthFieldsSigned bytes = true → (decode bytes).isPanicked = false := by
  intro n
  induction n with
  | zero =>
    intro bytes hb _
    match bytes with
    | [] => simp [decode, LoadResult.isPanicked]
    | b :: rest => simp at hb
  | succ n ih =>
    intro bytes hb h
    match bytes with
    | [] => simp [decode, LoadResult.isPanicked]
    | [b] => simp [decode, LoadResult.isPanicked]
    | b0 :: b1 :: rest =>
      rw [lengthFieldsSigned_cons_cons] at h
      rw [decode_cons_cons]
      by_cases h1 : 32768 ≤ b0 + 256 * b1
      · simp [h1] at h
      · by_cases h2 : rest.length < b0 + 256 * b1
        · simp [h1, h2, LoadResult.isPanicked]
        · rw [if_neg h1, if_neg h2] at h
          rw [if_neg h1, if_neg h2]
          have hlen : (rest.drop (b0 + 256 * b1)).length ≤ n := by
            simp only [List.length_cons] at hb
            simp [List.length_drop]; omega
          have hrec := ih (rest.drop (b0 + 256 * b1)) hlen h
          cases hd : decode (rest.drop (b0 + 256 * b1)) with
          | ok g => simp [LoadResult.isPanicked]
          | readErr g => simp [LoadResult.isPanicked]
          | panicked g => rw [hd] at hrec; simp [LoadResult.isPanicked] at hrec

theorem c5_no_panic_when_lengths_signed_nonneg (bytes : List Nat)
    (h : lengthFieldsSigned bytes = true) :
    (decode bytes).isPanicked = false :=
  no_panic_aux bytes.length bytes le_rfl h

/-- Witness for `c5_no_panic_iff_lengths_signed_nonneg`: a truncated but
non-negative-length input returns an error, not a panic. -/
theorem c5_no_panic_witness : (decode [2, 0, 9]).isPanicked = false :=
  c5_no_panic_when_lengths_signed_nonneg [2, 0, 9] (by simp [lengthFieldsSigned])

/-- A clip as held in memory: `VoiceMemo` (part_001 lines 381-384). -/
structure VoiceMemo where
  name : String
  buffer : List Frame
  deriving DecidableEq, Repr

/-- The fixed capacity of the per-guild `PlayQueue` buffered channel
(part_001 line 155: `make(chan *VoiceMemo, 10)`). -/
def queueCapacity : Nat := 10

/-- Outcome of `GuildSession.Enqueue` (part_001 lines 291-299): the
`select`/`default` either sends into the buffered channel or reports the
queue full without blocking. -/
inductive EnqueueResult
  | accepted
  | queueFull
  deriving DecidableEq, Repr

/-- `GuildSession.Enqueue`: a non-blocking send on a buffered channel of
capacity 10, with no concurrent receiver, succeeds exactly when the buffer
holds fewer than 10 entries; otherwise the `default` branch drops the clip
and reports the queue full. -/
def enqueue (q : List VoiceMemo) (vm : VoiceMemo) : List VoiceMemo × EnqueueResult :=
  if q.length < queueCapacity then (q ++ [vm], .accepted) else (q, .queueFull)

/-- A sequence of `Enqueue` calls with no intervening dequeues. -/
def enqueueAll (q : List VoiceMemo) : List VoiceMemo → List VoiceMemo × List EnqueueResult
  | [] => (q, [])
  | vm :: vms =>
    let step := enqueue q vm
    let rest := enqueueAll step.1 vms
    (rest.1, step.2 :: rest.2)

lemma enqueueAll_last_full (vs : List VoiceMemo) : ∀ (q : List VoiceMemo) (v : VoiceMemo),
    q.length + vs.length = queueCapacity →
    enqueueAll q (vs ++ [v]) =
      (q ++ vs, List.replicate vs.length .accepted ++ [.queueFull]) := by
  induction vs with
  | nil =>
    intro q v h
    simp only [List.length_nil, Nat.add_zero] at h
    simp [enqueueAll, enqueue, h]
  | cons w ws ih =>
    intro q v h
    simp only [List.length_cons] at h
    have hlt : q.length < queueCapacity := by omega
    have hrec := ih (q ++ [w]) v (by simp; omega)
    simp only [List.cons_append, enqueueAll, enqueue, if_pos hlt, List.append_eq]
    rw [hrec]
    simp [List.replicate_succ, List.append_assoc]

/-- C2: for a queue of capacity 10 that starts empty, a run of 11 enqueue
calls with no intervening dequeues never blocks, retains exactly the first
10 clips in FIFO order, reports `accepted` for each of them, and rejects
the 11th call with `queueFull`, leaving the 10 retained entries unchanged. -/
theorem c2_enqueue_capacity (vs : List VoiceMemo) (v : VoiceMemo)
    (h : vs.length = queueCapacity) :
    enqueueAll [] (vs ++ [v]) =
      (vs, List.replicate queueCapacity EnqueueResult.accepted ++
        [EnqueueResult.queueFull]) := by
  have hq := enqueueAll_last_full vs [] v (by simp [h])
  simpa [h] using hq

/-- Witness for `c2_enqueue_capacity` with 11 concrete clips. -/
theorem c2_enqueue_capacity_witness :
    enqueueAll [] (List.replicate 10 (VoiceMemo.mk "a" []) ++ [VoiceMemo.mk "b" []]) =
      (List.replicate 10 (VoiceMemo.mk "a" []),
        List.replicate 10 EnqueueResult.accepted ++ [EnqueueResult.queueFull]) :=
  c2_enqueue_capacity (List.replicate 10 (VoiceMemo.mk "a" [])) (VoiceMemo.mk "b" [])
    (by simp [queueCapacity])

/-!
The trigger prologue of `GuildSession.PlayFromQueue` (part_001 lines
301-312) as a transition system of two concurrent trigger tasks sharing the
`IsVoicePlaying` atomic boolean.  Each task runs

  `if gs.IsVoicePlaying.Load() { return }; gs.IsVoicePlaying.Store(true); <drain>`

and the `Load` and the `Store` are two separate atomic steps (there is no
compare-and-set), so steps of the two tasks may interleave between them.
-/

/-- Program counter of one `PlayFromQueue` trigger task: about to `Load`;
holding the loaded value; running the drain loop; or returned without
draining. -/
inductive TriggerPc
  | start
  | loaded (r : Bool)
  | draining
  | returned
  deriving DecidableEq, Repr

/-- Shared `IsVoicePlaying` flag plus the two tasks' program counters. -/
structure TrigState where
  flag : Bool
  pcA : TriggerPc
  pcB : TriggerPc
  deriving DecidableEq, Repr

/-- One atomic step of a trigger task: from `start`, atomically `Load` the
flag; from `loaded r`, either return (r = true) or atomically `Store true`
and enter the drain loop (r = false). -/
def triggerStep (pc : TriggerPc) (flag : Bool) : TriggerPc × Bool :=
  match pc with
  | .start => (.loaded flag, flag)
  | .loaded r => if r then (.returned, flag) else (.draining, true)
  | .draining => (.draining, flag)
  | .returned => (.returned, flag)

/-- Run a schedule (list of choices; `true` steps task A, `false` steps
task B) from a given state. -/
def runSched : List Bool → TrigState → TrigState
  | [], s => s
  | c :: cs, s =>
    if c then
      let step := triggerStep s.pcA s.flag
      runSched cs ⟨step.2, step.1, s.pcB⟩
    else
      let step := triggerStep s.pcB s.flag
      runSched cs ⟨step.2, s.pcA, step.1⟩

/-- How many of the two tasks are concurrently inside the drain loop. -/
def drainingCount (s : TrigState) : Nat :=
  (if s.pcA = .draining then 1 else 0) + (if s.pcB = .draining then 1 else 0)

/-- C1: the code uses `Load` then `Store` instead of a compare-and-set, so
two concurrent `PlayFromQueue` triggers racing from the idle state (flag
`false`) can BOTH observe `false` and BOTH enter the drain loop: under the
interleaving Load(A), Load(B), Store(A), Store(B) the number of tasks
concurrently in the `Playing`-owning role reaches 2, violating the claimed
"exactly one concurrent trigger wins" invariant. -/
theorem c1_both_triggers_drain :
    drainingCount (runSched [true, false, true, false]
      ⟨false, .start, .start⟩) = 2 := by decide

/-!
The drain loop body of `GuildSession.PlayFromQueue` (part_001 lines
314-333) as a deterministic step function.  The loop sends every frame of
the dequeued clip with `vc.OpusSend <- buff` — a channel send that cannot
return an error; when the voice connection is lost the send never
completes, which we model as the step making no progress.  The only exit
is the `default` branch taken when the queue is observed empty: it stops
speaking, stores `false` into the flag and returns.
-/

/-- State of one drain loop: frames of the in-flight clip still to send,
the remaining queue, the `IsVoicePlaying` flag, the speaking indicator,
whether the connection is still alive, the frames delivered so far, and
whether the loop has exited. -/
structure DrainState where
  pending : List Frame
  queue : List VoiceMemo
  playing : Bool
  speaking : Bool
  connAlive : Bool
  sent : List Frame
  finished : Bool
  deriving DecidableEq, Repr

/-- One step of the drain loop. -/
def drainStep (s : DrainState) : DrainState :=
  if s.finished then s
  else
    match s.pending with
    | f :: rest =>
      if s.connAlive then { s with pending := rest, sent := s.sent ++ [f] }
      else s
    | [] =>
      match s.queue with
      | vm :: q => { s with pending := vm.buffer, queue := q }
      | [] => { s with playing := false, speaking := false, finished := true }

/-- Iterate the drain loop `n` steps. -/
def drainRun : Nat → DrainState → DrainState
  | 0, s => s
  | n + 1, s => drainRun n (drainStep s)

/-- C9 counterexample: a drain loop whose connection is lost mid-clip (two
frames of the in-flight clip remaining) never abandons those frames and
never clears the playing flag — after any number of steps (here 10) the
frames are still pending, the flag is still `true` and the loop has not
exited, because the loop has no send-failure path and blocks on the
channel send.  The claim says the remaining frames are abandoned and the
flag is cleared. -/
theorem c9_counterexample :
    (drainRun 10 ⟨[[1], [2]], [], true, true, false, [], false⟩).playing = true ∧
    (drainRun 10 ⟨[[1], [2]], [], true, true, false, [], false⟩).pending = [[1], [2]] ∧
    (drainRun 10 ⟨[[1], [2]], [], true, true, false, [], false⟩).finished = false := by
  decide

/-- C9 (amended): the drain loop contains no send-failure or
connection-lost handling at all.  If the connection dies while frames of a
clip are still pending, the loop blocks on the channel send forever: no
number of steps makes any progress, so the in-flight frames are never
abandoned, the playing flag is never cleared, and the session never
returns to `Idle` (a subsequent `play` for the tenant enqueues but can
never win the trigger check). -/
theorem c9_lost_connection_never_recovers (s : DrainState)
    (hc : s.connAlive = false) (hf : s.finished = false) (hp : s.pending ≠ []) :
    ∀ n, drainRun n s = s := by
  have hstep : drainStep s = s := by
    cases hpe : s.pending with
    | nil => exact absurd hpe hp
    | cons f rest => simp [drainStep, hf, hc, hpe]
  intro n
  induction n with
  | zero => rfl
  | succ n ih => simp [drainRun, hstep, ih]

/-- Witness for `c9_lost_connection_never_recovers` at a concrete stuck state. -/
theorem c9_lost_connection_witness :
    drainRun 3 ⟨[[1], [2]], [], true, true, false, [], false⟩ =
      ⟨[[1], [2]], [], true, true, false, [], false⟩ :=
  c9_lost_connection_never_recovers ⟨[[1], [2]], [], true, true, false, [], false⟩
    rfl rfl (by decide) 3

/-!
Session registry: `Bot.GuildSessions` (a Go map from guild id to
`*GuildSession`) with the handlers `Bot.HandleJoin` (part_001 lines
127-167) and `Bot.HandleLeave` (lines 169-179).  The external
`discordgo` collaborators are parameters: the guild's voice states come in
with the guild value, and `s.ChannelVoiceJoin` is a connection factory
returning an optional opaque handle.
-/

/-- One entry of `discordgo.Guild.VoiceStates`: who is in which voice channel. -/
structure VoiceState where
  userID : String
  channelID : String
  deriving DecidableEq, Repr

/-- The slice of a `discordgo.Guild` the handlers read. -/
structure Guild where
  id : String
  name : String
  voiceStates : List VoiceState
  deriving DecidableEq, Repr

/-- `GuildSession` (part_001 lines 283-289): a fresh session starts with an
empty queue and the atomic flag at its zero value `false`. -/
structure GuildSession where
  id : String
  guildName : String
  voiceConnection : Nat
  playQueue : List VoiceMemo
  isVoicePlaying : Bool
  deriving DecidableEq, Repr

/-- The `Bot.GuildSessions` map. -/
def Registry := String → Option GuildSession

/-- Go map assignment `b.GuildSessions[k] = s`. -/
def regInsert (reg : Registry) (k : String) (s : GuildSession) : Registry :=
  fun x => if x = k then some s else reg x

/-- Go `delete(b.GuildSessions, k)`. -/
def regErase (reg : Registry) (k : String) : Registry :=
  fun x => if x = k then none else reg x

/-- The user-observable outcome of `Bot.HandleJoin`. -/
inductive JoinOutcome
  | alreadyJoined
  | joined (handle : Nat)
  | connectFailed
  | notInVoice
  deriving DecidableEq, Repr

/-- `Bot.HandleJoin`: if a session already exists, report so and leave the
registry alone; otherwise scan the guild's voice states for the message
author (the Go loop attempts the join for the FIRST matching state and
returns either way); on a connection error nothing is stored; on success a
fresh session is stored under the guild id. -/
def handleJoin (connect : String → String → Option Nat) (reg : Registry)
    (g : Guild) (authorID : String) : Registry × JoinOutcome :=
  match reg g.id with
  | some _ => (reg, .alreadyJoined)
  | none =>
    match g.voiceStates.find? (fun vs => vs.userID == authorID) with
    | none => (reg, .notInVoice)
    | some vs =>
      match connect g.id vs.channelID with
      | none => (reg, .connectFailed)
      | some h => (regInsert reg g.id ⟨g.id, g.name, h, [], false⟩, .joined h)

/-- The outcome of `Bot.HandleLeave`; `left h` records that `Disconnect`
was called on connection handle `h`. -/
inductive LeaveOutcome
  | notJoined
  | left (disconnected : Nat)
  deriving DecidableEq, Repr

/-- `Bot.HandleLeave`: missing entry is a logged no-op; otherwise
disconnect the session's connection and delete the registry entry. -/
def handleLeave (reg : Registry) (gid : String) : Registry × LeaveOutcome :=
  match reg gid with
  | none => (reg, .notJoined)
  | some gs => (regErase reg gid, .left gs.voiceConnection)

/-- C7: starting from a registry with no entry for the tenant, with the
author present in a voice channel and the connection factory succeeding:
the first `join` succeeds and stores a fresh session; a second `join`
returns `AlreadyJoined` with the registry unchanged; `leave` disconnects
the stored connection handle and removes the entry, after which `join`
succeeds again; and `leave` with no entry reports `NotJoined` and leaves
the registry unchanged. -/
theorem c7_join_leave_cycle (connect : String → String → Option Nat)
    (reg : Registry) (g : Guild) (author : String) (vs : VoiceState) (hdl : Nat)
    (h0 : reg g.id = none)
    (hv : g.voiceStates.find? (fun s => s.userID == author) = some vs)
    (hc : connect g.id vs.channelID = some hdl) :
    handleJoin connect reg g author =
      (regInsert reg g.id ⟨g.id, g.name, hdl, [], false⟩, .joined hdl) ∧
    handleJoin connect (regInsert reg g.id ⟨g.id, g.name, hdl, [], false⟩) g author =
      (regInsert reg g.id ⟨g.id, g.name, hdl, [], false⟩, .alreadyJoined) ∧
    handleLeave (regInsert reg g.id ⟨g.id, g.name, hdl, [], false⟩) g.id =
      (regErase (regInsert reg g.id ⟨g.id, g.name, hdl, [], false⟩) g.id, .left hdl) ∧
    (handleJoin connect (regErase (regInsert reg g.id ⟨g.id, g.name, hdl, [], false⟩) g.id)
        g author).2 = .joined hdl ∧
    handleLeave reg g.id = (reg, .notJoined) := by
  refine ⟨?_, ?_, ?_, ?_, ?_⟩
  · simp [handleJoin, h0, hv, hc]
  · simp [handleJoin, regInsert]
  · simp [handleLeave, regInsert, regErase]
  · simp [handleJoin, regErase, regInsert, hv, hc]
  · simp [handleLeave, h0]

/-- Witness for `c7_join_leave_cycle` at a concrete tenant. -/
theorem c7_join_leave_cycle_witness :
    handleJoin (fun _ _ => some 7) (fun _ => none) ⟨"g1", "Guild One", [⟨"alice", "vc1"⟩]⟩ "alice" =
      (regInsert (fun _ => none) "g1" ⟨"g1", "Guild One", 7, [], false⟩, .joined 7) ∧
    handleJoin (fun _ _ => some 7)
        (regInsert (fun _ => none) "g1" ⟨"g1", "Guild One", 7, [], false⟩)
        ⟨"g1", "Guild One", [⟨"alice", "vc1"⟩]⟩ "alice" =
      (regInsert (fun _ => none) "g1" ⟨"g1", "Guild One", 7, [], false⟩, .alreadyJoined) ∧
    handleLeave (regInsert (fun _ => none) "g1" ⟨"g1", "Guild One", 7, [], false⟩) "g1" =
      (regErase (regInsert (fun _ => none) "g1" ⟨"g1", "Guild One", 7, [], false⟩) "g1",
        .left 7) ∧
    (handleJoin (fun _ _ => some 7)
        (regErase (regInsert (fun _ => none) "g1" ⟨"g1", "Guild One", 7, [], false⟩) "g1")
        ⟨"g1", "Guild One", [⟨"alice", "vc1"⟩]⟩ "alice").2 = .joined 7 ∧
    handleLeave (fun _ => none) "g1" = ((fun _ => none : Registry), .notJoined) :=
  c7_join_leave_cycle (fun _ _ => some 7) (fun _ => none)
    ⟨"g1", "Guild One", [⟨"alice", "vc1"⟩]⟩ "alice" ⟨"alice", "vc1"⟩ 7 rfl rfl rfl

/-- C8: a registry entry is created only when the requesting user has a
live voice presence and the connection is established: a `join` whose
sender appears in none of the guild's voice states returns `NotInVoice`
and stores nothing, and a `join` whose connection attempt fails stores
nothing either — in both cases the registry value is returned untouched. -/
theorem c8_entry_only_on_successful_join (connect : String → String → Option Nat)
    (reg : Registry) (g : Guild) (author : String) (h0 : reg g.id = none) :
    (g.voiceStates.find? (fun vs => vs.userID == author) = none →
      handleJoin connect reg g author = (reg, .notInVoice)) ∧
    (∀ vs, g.voiceStates.find? (fun vs => vs.userID == author) = some vs →
      connect g.id vs.channelID = none →
      handleJoin connect reg g author = (reg, .connectFailed)) := by
  constructor
  · intro hn
    simp [handleJoin, h0, hn]
  · intro vs hv hc
    simp [handleJoin, h0, hv, hc]

/-- Witness for `c8_entry_only_on_successful_join`: a sender not in voice,
and a sender in voice whose connection attempt fails. -/
theorem c8_entry_only_on_successful_join_witness :
    handleJoin (fun _ _ => none) (fun _ => none) ⟨"g2", "Guild Two", []⟩ "bob" =
      ((fun _ => none : Registry), .notInVoice) ∧
    handleJoin (fun _ _ => none) (fun _ => none)
        ⟨"g2", "Guild Two", [⟨"bob", "vc2"⟩]⟩ "bob" =
      ((fun _ => none : Registry), .connectFailed) :=
  ⟨(c8_entry_only_on_successful_join (fun _ _ => none) (fun _ => none)
      ⟨"g2", "Guild Two", []⟩ "bob" rfl).1 rfl,
    (c8_entry_only_on_successful_join (fun _ _ => none) (fun _ => none)
      ⟨"g2", "Guild Two", [⟨"bob", "vc2"⟩]⟩ "bob" rfl).2 ⟨"bob", "vc2"⟩ rfl rfl⟩

/-!
Clip catalog: `VoiceMemoManager.Store`, populated by
`NewVoiceMemoManager`/`LoadAll` (part_001 lines 339-371) and extended by
`Bot.HandleUpload` (lines 223-281).  The directory of container files is a
partial map from clip name to file bytes; a missing file models an
open error.  `VoiceMemo.Load` returns its error to the caller, but BOTH
callers (`LoadAll` and `HandleUpload`) discard it.  A decode panic kills
the process, modelled as `none` propagating out of the whole operation.
-/

/-- The `voicememo_files/` directory: clip name to the bytes of
`<name>.dca` (`none` = the open fails). -/
def FileSystem := String → Option (List Nat)

/-- `VoiceMemo.Load`: open error leaves the buffer untouched and reports
failure; otherwise decode the bytes, append whatever frames were decoded
to the buffer, and report whether `Load` returned `nil`.  A decode panic
is `none` (the process dies). -/
def loadVoiceMemo (fs : FileSystem) (vm : VoiceMemo) : Option (VoiceMemo × Bool) :=
  match fs vm.name with
  | none => some (vm, false)
  | some bytes =>
    match decode bytes with
    | .ok frames => some (⟨vm.name, vm.buffer ++ frames⟩, true)
    | .readErr frames => some (⟨vm.name, vm.buffer ++ frames⟩, false)
    | .panicked _ => none

/-- Go map assignment `m.Store[k] = v` over an association-list view of the
catalog. -/
def storeInsert (st : List (String × VoiceMemo)) (k : String) (v : VoiceMemo) :
    List (String × VoiceMemo) :=
  if st.any (fun p => p.1 == k) then
    st.map (fun p => if p.1 == k then (k, v) else p)
  else st ++ [(k, v)]

/-- `VoiceMemoManager.LoadAll`: call `Load` on every catalog entry,
ignoring each per-file result (`voiceMemo.Load()` with the error
discarded); every entry stays in the catalog no matter how its load went. -/
def loadAllStore (fs : FileSystem) :
    List (String × VoiceMemo) → Option (List (String × VoiceMemo))
  | [] => some []
  | (k, vm) :: rest =>
    match loadVoiceMemo fs vm with
    | none => none
    | some (vm', _) =>
      match loadAllStore fs rest with
      | none => none
      | some rest' => some ((k, vm') :: rest')

/-- The tail of `Bot.HandleUpload` after the external download/convert
pipeline has produced the on-disk file: build a fresh `VoiceMemo`, call
`Load` discarding its error, store it unconditionally, and send the
"Successfully uploaded" message (the returned `Bool` is that success
notice). -/
def handleUpload (fs : FileSystem) (st : List (String × VoiceMemo))
    (name : String) : Option (List (String × VoiceMemo) × Bool) :=
  match loadVoiceMemo fs ⟨name, []⟩ with
  | none => none
  | some (vm, _) => some (storeInsert st name vm, true)

/-- C6 counterexample: the file "bad" holds `[3,0,1]` (prefix promises 3
payload bytes, only 1 present), so its decode fails with an error and no
complete frame.  Startup `LoadAll` nevertheless KEEPS the catalog entry
for "bad" (with an empty frame sequence), and `HandleUpload` of the same
file REGISTERS the clip and reports success.  The claim says a failed
decode is never registered and is reported as an upload failure. -/
theorem c6_counterexample :
    loadAllStore (fun n => if n = "bad" then some [3, 0, 1] else none)
        [("bad", ⟨"bad", []⟩)] = some [("bad", ⟨"bad", []⟩)] ∧
    handleUpload (fun n => if n = "bad" then some [3, 0, 1] else none) [] "bad" =
      some ([("bad", ⟨"bad", []⟩)], true) := by
  constructor <;> simp [loadAllStore, handleUpload, loadVoiceMemo, storeInsert, decode]

/-- C6 (amended): a clip whose container fails to decode IS registered in
the catalog: `LoadAll` keeps the entry, with whatever frames were decoded
before the failure, because the per-file error is discarded; and
`HandleUpload` stores the partially decoded clip and reports
"Successfully uploaded" regardless of the decode failure. -/
theorem c6_failed_decode_still_registered (fs : FileSystem) (k : String)
    (bytes : List Nat) (frames : List Frame) (st : List (String × VoiceMemo))
    (h1 : fs k = some bytes) (h2 : decode bytes = .readErr frames) :
    loadAllStore fs [(k, ⟨k, []⟩)] = some [(k, ⟨k, frames⟩)] ∧
    handleUpload fs st k = some (storeInsert st k ⟨k, frames⟩, true) := by
  constructor <;> simp [loadAllStore, handleUpload, loadVoiceMemo, h1, h2]

/-- Witness for `c6_failed_decode_still_registered` at a concrete failing
file. -/
theorem c6_failed_decode_still_registered_witness :
    loadAllStore (fun n => if n = "x" then some [2, 0, 9] else none)
        [("x", ⟨"x", []⟩)] = some [("x", ⟨"x", []⟩)] ∧
    handleUpload (fun n => if n = "x" then some [2, 0, 9] else none) [] "x" =
      some (storeInsert [] "x" ⟨"x", []⟩, true) :=
  c6_failed_decode_still_registered (fun n => if n = "x" then some [2, 0, 9] else none)
    "x" [2, 0, 9] [] [] (by simp) (by simp [decode])

/-!
Command dispatch: `Bot.CommandCenter` (part_001 lines 79-125; identically
in `src/main.go` lines 78-124).  Message content is modelled as a list of
characters; `strings.Fields` splits on runs of (ASCII) whitespace and
`strings.TrimPrefix` removes at most one copy of the given prefix.  The
author/channel/guild lookups that precede the dispatch are external and
out of scope: the model starts where the content is inspected.
-/

/-- ASCII whitespace, the fragment of `unicode.IsSpace` relevant here. -/
def isSpaceChar (c : Char) : Bool :=
  c == ' ' || c == '\t' || c == '\n' || c == '\r'

/-- Accumulating word splitter behind `fieldsChars`. -/
def fieldsAux : List Char → List Char → List (List Char)
  | [], acc => if acc.isEmpty then [] else [acc.reverse]
  | c :: cs, acc =>
    if isSpaceChar c then
      if acc.isEmpty then fieldsAux cs [] else acc.reverse :: fieldsAux cs []
    else fieldsAux cs (c :: acc)

/-- `strings.Fields`: split around runs of whitespace, no empty fields. -/
def fieldsChars (s : List Char) : List (List Char) := fieldsAux s []

/-- `strings.TrimPrefix` for a single-character prefix. -/
def trimLeadChar (p : Char) : List Char → List Char
  | [] => []
  | c :: cs => if c = p then cs else c :: cs

/-- What `CommandCenter` does with a message, including the untrapped
indexing of `args[1]`: `panicIndex` marks the Go runtime panic
"index out of range" raised by `args[1]` when the fields slice has fewer
than two entries. -/
inductive Dispatch
  | ignored
  | joinCmd
  | leaveCmd
  | playCmd (clipName : List Char)
  | listCmd
  | uploadCmd
  | recordCmd
  | unrecognized
  | panicIndex
  deriving DecidableEq, Repr

/-- `Bot.CommandCenter`: with a `!`-prefixed content, split into fields,
take `args[0]` minus the `!`, and dispatch; the `play` arm evaluates
`strings.TrimPrefix(args[1], "-")` before calling the handler, so a
message with no second field panics. -/
def commandCenter (content : List Char) : Dispatch :=
  if (match content with | '!' :: _ => true | _ => false) then
    match fieldsChars content with
    | [] => .panicIndex
    | a0 :: rest =>
      let cmd := trimLeadChar '!' a0
      if cmd = ['j', 'o', 'i', 'n'] then .joinCmd
      else if cmd = ['l', 'e', 'a', 'v', 'e'] then .leaveCmd
      else if cmd = ['p', 'l', 'a', 'y'] then
        match rest with
        | [] => .panicIndex
        | a1 :: _ => .playCmd (trimLeadChar '-' a1)
      else if cmd = ['l', 'i', 's', 't'] then .listCmd
      else if cmd = ['u', 'p', 'l', 'o', 'a', 'd'] then .uploadCmd
      else if cmd = ['r', 'e', 'c', 'o', 'r', 'd'] then .recordCmd
      else .unrecognized
  else .ignored

/-- C10: the dispatcher is not total over well-formed inbound messages —
the message whose content is exactly `!play` (no clip-name argument)
reaches the `play` arm with a single-element fields slice, and the
unchecked `args[1]` indexing panics instead of producing any user-visible
notice. -/
theorem c10_play_without_argument_panics :
    commandCenter ['!', 'p', 'l', 'a', 'y'] = .panicIndex := by decide
